import Mathlib

/-!
Shallow embedding of the YetiFace-Web client-side renderer, translated from
the JavaScript sources, together with theorems settling the specification
claims about it.  Each section of definitions mirrors one source module:
steam URL resolution (`steamUtils.js` / `sectionRenderer.js`), the Steam
availability race, section/item rendering, the theme manager, the bootstrap
sequencer, and the modal renderer.
-/

namespace YetiFace

/-! ### Steam URL resolution (`steamUtils.js`, `sectionRenderer.js`) -/

/-- The host test of `tryOpenSteamFromWebUrl`: the JS regular expression
tests, case-insensitively, that the URL starts with `http://` or `https://`
followed by `store.steampowered.com/` or `steamcommunity.com/`. -/
def isSteamHost (url : String) : Bool :=
  let l := url.data.map Char.toLower
  "http://store.steampowered.com/".data.isPrefixOf l ||
  "https://store.steampowered.com/".data.isPrefixOf l ||
  "http://steamcommunity.com/".data.isPrefixOf l ||
  "https://steamcommunity.com/".data.isPrefixOf l

/-- One attempt of the app-id pattern at the head of the character list:
succeeds when the list starts with `/app/` followed by at least one ASCII
digit, returning the maximal digit run (the greedy capture group). -/
def matchAppAt : List Char → Option (List Char)
  | a :: b :: c :: d :: e :: rest =>
      if a = '/' ∧ b = 'a' ∧ c = 'p' ∧ d = 'p' ∧ e = '/' then
        let ds := rest.takeWhile Char.isDigit
        if ds = [] then none else some ds
      else none
  | _ => none

/-- Left-to-right scan for the first position where the app-id pattern
matches, as the JS `String.prototype.match` search does. -/
def scanAppId : List Char → Option (List Char)
  | [] => none
  | c :: rest =>
      match matchAppAt (c :: rest) with
      | some ds => some ds
      | none => scanAppId rest

/-- `url.match(/\/app\/(\d+)/)`: the digits captured at the first match of
the app-id pattern, if any. -/
def findAppId (url : String) : Option String :=
  (scanAppId url.data).map fun ds => String.mk ds

/-- UTF-8 bytes of a scalar value, used by the percent-encoding of the JS
`encodeURI` builtin. -/
def utf8Bytes (c : Char) : List Nat :=
  let n := c.toNat
  if n < 128 then [n]
  else if n < 2048 then [192 + n / 64, 128 + n % 64]
  else if n < 65536 then [224 + n / 4096, 128 + (n / 64) % 64, 128 + n % 64]
  else [240 + n / 262144, 128 + (n / 4096) % 64, 128 + (n / 64) % 64, 128 + n % 64]

/-- Upper-case hexadecimal digit, as emitted by `encodeURI`. -/
def uriHexDigit (n : Nat) : Char :=
  if n < 10 then Char.ofNat (48 + n) else Char.ofNat (55 + n)

/-- `%XY` escape of one byte. -/
def percentByte (b : Nat) : List Char :=
  [Char.ofNat 37, uriHexDigit (b / 16), uriHexDigit (b % 16)]

/-- The characters `encodeURI` leaves unescaped: ASCII alphanumerics, the
mark characters and the URI-reserved characters. -/
def uriUnescaped (c : Char) : Bool :=
  c.isAlphanum ||
  c ∈ [';', '/', '?', ':', '@', '&', '=', '+', '$', ',',
       '-', '_', '.', '!', '~', '*', Char.ofNat 39, '(', ')', '#']

/-- The JS `encodeURI` builtin: unescaped characters pass through, all
others are replaced by the percent-escapes of their UTF-8 bytes. -/
def encodeURI (s : String) : String :=
  String.mk (s.data.foldr
    (fun c acc => (if uriUnescaped c then [c] else (utf8Bytes c).foldr
        (fun b acc2 => percentByte b ++ acc2) []) ++ acc) [])

/-- The externally observable action a click path commits to. -/
inductive SteamAction where
  | nothing
  | openWeb (url : String)
  | deepLink (protoUrl : String) (fallbackUrl : String)
deriving DecidableEq, Repr

/-- `tryOpenSteamFromWebUrl` from `steamUtils.js`: empty input is a no-op;
a non-Steam-host URL opens on the web; a Steam-host URL with an `/app/<id>`
pattern attempts `steam://store/<id>`; any other Steam-host URL attempts
`steam://openurl/<encodeURI(url)>`.  The deep-link attempt is handed to
`checkSteamAvailability` with the original URL as web fallback. -/
def tryOpenSteamFromWebUrl (steamUrl : String) : SteamAction :=
  if steamUrl = "" then SteamAction.nothing
  else if isSteamHost steamUrl then
    match findAppId steamUrl with
    | some ds => SteamAction.deepLink ("steam://store/" ++ ds) steamUrl
    | none => SteamAction.deepLink ("steam://openurl/" ++ encodeURI steamUrl) steamUrl
  else SteamAction.openWeb steamUrl

/-- The click handler installed by `createSteamButton` in
`sectionRenderer.js`: it extracts the app id from the URL; on success it
attempts `steam://store/<id>` via `checkSteamAvailability`, otherwise it
opens the web URL directly.  There is no host test on this path. -/
def steamButtonClick (steamUrl : String) : SteamAction :=
  match findAppId steamUrl with
  | some ds => SteamAction.deepLink ("steam://store/" ++ ds) steamUrl
  | none => SteamAction.openWeb steamUrl

/-! ### The `checkSteamAvailability` race (`steamUtils.js` lines 43-96,
`sectionRenderer.js` lines 245-318; both copies have identical logic)

One invocation is modelled as an event-driven state machine.  The setup
code runs to completion before any event can be handled (single-threaded
JS), so the initial state has the iframe appended, the timer armed, and
both listeners attached.  External stimuli are a window `blur`, a
`visibilitychange` (carrying `document.hidden`), and the expiry of the
100ms timer; a cleared timer never fires, modelled by the `timerActive`
guard on the `timerFire` step. -/

namespace SteamCheck

/-- An external stimulus delivered to one `checkSteamAvailability`
invocation. -/
inductive Event where
  | blur
  | visChange (hidden : Bool)
  | timerFire
deriving DecidableEq, Repr

/-- The mutable state of one invocation: the `steamDetected` flag, whether
the timeout is still armed, whether each listener is still attached,
whether the hidden test iframe is still in the document, and how many
times the fallback web URL has been opened. -/
structure CState where
  steamDetected : Bool
  timerActive : Bool
  blurAttached : Bool
  visAttached : Bool
  frameAttached : Bool
  webOpens : Nat
deriving DecidableEq, Repr

/-- State after the synchronous setup code of `checkSteamAvailability`. -/
def init : CState :=
  { steamDetected := false, timerActive := true, blurAttached := true,
    visAttached := true, frameAttached := true, webOpens := 0 }

/-- One event step.
`blur`: the handler was registered with `once: true`, so it runs only while
attached and detaches itself; it sets `steamDetected` and runs `cleanup`
(clear the timer, remove the iframe) — it does not detach the
`visibilitychange` listener.
`visChange`: the handler runs while attached; it acts only when the
document became hidden and Steam was not already detected, setting
`steamDetected` and running `cleanup` — it detaches neither listener.
`timerFire`: only an armed timer fires; if Steam was not detected it opens
the fallback web URL, then it detaches both listeners and runs
`cleanup`. -/
def step (s : CState) : Event → CState
  | Event.blur =>
      if s.blurAttached then
        { s with steamDetected := true, blurAttached := false,
                 timerActive := false, frameAttached := false }
      else s
  | Event.visChange hidden =>
      if s.visAttached && hidden && !s.steamDetected then
        { s with steamDetected := true, timerActive := false,
                 frameAttached := false }
      else s
  | Event.timerFire =>
      if s.timerActive then
        { s with timerActive := false,
                 webOpens := s.webOpens + (if s.steamDetected then 0 else 1),
                 blurAttached := false, visAttached := false,
                 frameAttached := false }
      else s

/-- The state of one invocation after a sequence of stimuli. -/
def run (t : List Event) : CState := t.foldl step init

/-- The stimuli that signal a successful handoff: a window blur, or a
visibility change to hidden. -/
def isSignal : Event → Bool
  | Event.blur => true
  | Event.visChange hidden => hidden
  | Event.timerFire => false

/-- State reached after a blur signal committed the handoff. -/
def afterBlur : CState :=
  { steamDetected := true, timerActive := false, blurAttached := false,
    visAttached := true, frameAttached := false, webOpens := 0 }

/-- State reached after a visibility-hidden signal committed the handoff
(the blur listener is still attached). -/
def afterVis : CState :=
  { steamDetected := true, timerActive := false, blurAttached := true,
    visAttached := true, frameAttached := false, webOpens := 0 }

/-- State reached after the timeout committed the web fallback. -/
def afterTimeout : CState :=
  { steamDetected := false, timerActive := false, blurAttached := false,
    visAttached := false, frameAttached := false, webOpens := 1 }

end SteamCheck

/-! ### Section/item rendering (`sectionRenderer.js`) -/

/-- A JS value stored in an item `text` field: a single string or an array
of strings. -/
inductive TextVal where
  | str (s : String)
  | arr (l : List String)
deriving DecidableEq, Repr

/-- The string a JS DOM `textContent` assignment coerces a `TextVal` to:
strings pass through, arrays stringify as their elements joined by
commas. -/
def textToDOMString : TextVal → String
  | TextVal.str s => s
  | TextVal.arr l => String.intercalate "," l

/-- JS truthiness of an optional string field (`undefined` and the empty
string are falsy). -/
def strTruthy : Option String → Bool
  | none => false
  | some s => s ≠ ""

/-- JS truthiness of an optional `text` field (any array, even empty, is
truthy; the empty string is falsy). -/
def textTruthy : Option TextVal → Bool
  | none => false
  | some (TextVal.str s) => s ≠ ""
  | some (TextVal.arr _) => true

/-- An item record of the content document. -/
structure Item where
  image : Option String
  heading : Option String
  text : Option TextVal
  steamUrl : Option String
deriving DecidableEq, Repr

/-- A section record of the content document. -/
structure Sect where
  title : String
  items : List Item
deriving DecidableEq, Repr

/-- An `img` element as configured by `createItemImage`: the `src` is
assigned immediately, the native `loading` attribute is set to `"lazy"`,
an IntersectionObserver is attached (it only toggles a CSS class), and the
error handler hides the element. -/
structure ImageEl where
  src : String
  alt : String
  loadingAttr : String
  lazyObserved : Bool
  hideOnError : Bool
deriving DecidableEq, Repr

/-- `createItemImage(imageUrl, altText)` from `sectionRenderer.js`. -/
def createItemImage (imageUrl : String) (altText : String) : ImageEl :=
  { src := imageUrl,
    alt := if altText = "" then "Item image" else altText,
    loadingAttr := "lazy",
    lazyObserved := true,
    hideOnError := true }

/-- The item images of a whole rendered document, in document order: for
each section in order, for each item in order, `createItemElement` creates
an image exactly when `item.image` is truthy, passing `item.heading` as
alt text (JS default parameter makes a missing heading the empty
string). -/
def itemImages (sections : List Sect) : List ImageEl :=
  ((sections.map Sect.items).flatten).filterMap fun it =>
    if strTruthy it.image then
      some (createItemImage (it.image.getD "") (it.heading.getD ""))
    else none

/-- A child node `createItemContent` appends to the item content
container. -/
inductive ContentNode where
  | heading (s : String)
  | para (content : String) (cls : String)
  | steamButton (href : String) (ariaLabel : String)
deriving DecidableEq, Repr

/-- `createItemContent(item)` from `sectionRenderer.js`: an `h3` when the
heading is truthy; a single `p.item-text` whose `textContent` is the
(coerced) `text` value when `text` is truthy; a Steam button when
`steamUrl` is truthy; and an empty placeholder paragraph when neither
heading nor text is truthy. -/
def createItemContent (it : Item) : List ContentNode :=
  (if strTruthy it.heading then [ContentNode.heading (it.heading.getD "")] else []) ++
  (if textTruthy it.text then
      [ContentNode.para (textToDOMString ((it.text).getD (TextVal.str ""))) "item-text"]
    else []) ++
  (if strTruthy it.steamUrl then
      [ContentNode.steamButton (it.steamUrl.getD "")
        ("View " ++ (if strTruthy it.heading then it.heading.getD "" else "this game")
          ++ " on Steam")]
    else []) ++
  (if strTruthy it.heading = false ∧ textTruthy it.text = false then
      [ContentNode.para "" "item-text placeholder"]
    else [])

/-! ### Theme manager (`themeManager.js`, both revisions agree on the
functions below) -/

/-- Substring test on character lists (the JS `String.prototype.includes`
used by `getCurrentTheme`). -/
def hasSubstr (pat : List Char) : List Char → Bool
  | [] => pat.isEmpty
  | c :: rest => pat.isPrefixOf (c :: rest) || hasSubstr pat rest

/-- `s.includes(pat)` on Lean strings. -/
def strIncludes (s pat : String) : Bool := hasSubstr pat.data s.data

/-- `getStoredTheme()`: `localStorage.getItem('theme') || 'dark'` — the
default applies only when the key is absent (`null`) or holds the empty
string; any other stored value is returned verbatim. -/
def getStoredTheme (stored : Option String) : String :=
  match stored with
  | none => "dark"
  | some s => if s = "" then "dark" else s

/-- The document state the theme manager reads and writes: the
`theme-style` link `href`, the persisted `localStorage` entry, and the
body `data-theme` attribute. -/
structure ThemeState where
  href : Option String
  stored : Option String
  bodyTheme : Option String
deriving DecidableEq, Repr

/-- `getCurrentTheme()`: `dark` when the stylesheet link is missing or its
`href` contains the substring `dark`, else `light`. -/
def getCurrentTheme (st : ThemeState) : String :=
  match st.href with
  | none => "dark"
  | some h => if strIncludes h "dark" then "dark" else "light"

/-- The internal `setTheme(theme)` of `setupThemeToggle`: invalid input
coerces to `dark`; then the stylesheet `href`, the persisted entry and the
body attribute are all rewritten to the chosen theme. -/
def setTheme (theme : String) (_st : ThemeState) : ThemeState :=
  let t := if theme = "dark" ∨ theme = "light" then theme else "dark"
  { href := some ("css/" ++ t ++ ".css"), stored := some t, bodyTheme := some t }

/-- The toggle button click handler: flips the current theme and applies
it via `setTheme`. -/
def clickToggle (st : ThemeState) : ThemeState :=
  setTheme (if getCurrentTheme st = "dark" then "light" else "dark") st

/-! ### Bootstrap sequencer (`index.js`, both revisions) and data loader
(`dataLoader.js`) -/

/-- A modal record of the content document. -/
structure ModalSpec where
  id : String
  title : String
  content : Option TextVal
deriving DecidableEq, Repr

/-- The slice of the fetched content document the bootstrap needs. -/
structure ContentDoc where
  headerLogo : Option String
  sections : Option (List Sect)
  modals : Option (List (Option ModalSpec))
deriving DecidableEq, Repr

/-- The outcome of the `fetch('data/data.json')` transport call: a network
failure, or a response with an HTTP status whose body either parses to a
content document or fails to parse. -/
inductive FetchOutcome where
  | networkError (msg : String)
  | response (status : Nat) (body : Except String ContentDoc)
deriving Repr

/-- `loadData()` from `dataLoader.js`: throws on network failure, throws
`HTTP error!` when `response.ok` is false (status outside 200-299), and
otherwise returns the parse result (re-throwing a parse failure). -/
def loadData (f : FetchOutcome) : Except String ContentDoc :=
  match f with
  | FetchOutcome.networkError m => Except.error m
  | FetchOutcome.response status body =>
      if 200 ≤ status ∧ status ≤ 299 then body
      else Except.error ("HTTP error! status: " ++ toString status)

/-- What the `main-content` region displays. -/
inductive MainContent where
  | empty
  | loadingUI (logo : String)
  | sectionsView (secs : List Sect)
  | errorMsg (msg : String)
deriving DecidableEq, Repr

/-- Page state of the first `index.js` revision: the body `loading` class
and the `main-content` region. -/
structure PageA where
  bodyLoadingClass : Bool
  mainContent : MainContent
deriving DecidableEq, Repr

/-- Page state of the second `index.js` revision: the `app-spinner` and
`app-content` display toggles, and whether `displayError` ever wrote a
failure message. -/
structure PageB where
  spinnerHidden : Bool
  contentShown : Bool
  errorShown : Bool
deriving DecidableEq, Repr

/-- `initializeApp` of the first `index.js` revision: on success it shows
the loading UI, renders the sections when present (leaving the loading UI
in place when the document has no `sections` field), and removes the body
`loading` class; on any thrown error the catch block calls
`displayError(...)` and `hideLoadingState()`. -/
def initializeAppA (f : FetchOutcome) : PageA :=
  match loadData f with
  | Except.error _ =>
      { bodyLoadingClass := false,
        mainContent := MainContent.errorMsg
          "Sorry, something went wrong loading the page. Please try refreshing." }
  | Except.ok d =>
      { bodyLoadingClass := false,
        mainContent :=
          match d.sections with
          | some secs => MainContent.sectionsView secs
          | none => MainContent.loadingUI (d.headerLogo.getD "assets/logo.webp") }

/-- `initializeApp` of the second `index.js` revision: both the success
path and the catch block hide the spinner and show the content; the catch
block only logs — it never calls `displayError`. -/
def initializeAppB (f : FetchOutcome) : PageB :=
  match loadData f with
  | Except.error _ => { spinnerHidden := true, contentShown := true, errorShown := false }
  | Except.ok _ => { spinnerHidden := true, contentShown := true, errorShown := false }

/-! ### Modal renderer (`modalRenderer.js`) -/

/-- `modal-<id>`, the DOM element id of a rendered modal overlay. -/
def modalKey (id : String) : String := "modal-" ++ id

/-- One iteration of the `modals.forEach` body of `renderModals`, acting
on the list of modal element ids present in the document: a null entry or
one with a falsy `id` or `title` is skipped, an id whose element already
exists is skipped, and otherwise a new overlay is appended. -/
def renderModalStep (dom : List String) (m : Option ModalSpec) : List String :=
  match m with
  | none => dom
  | some m =>
      if m.id = "" then dom
      else if m.title = "" then dom
      else if modalKey m.id ∈ dom then dom
      else dom ++ [modalKey m.id]

/-- `renderModals(modals)` restricted to its DOM construction: a non-array
or empty argument returns immediately; otherwise each entry is processed
in order. -/
def renderModals (dom : List String) (ms : List (Option ModalSpec)) : List String :=
  if ms.isEmpty then dom else ms.foldl renderModalStep dom

/-- A focus target: an ordinary element or a rendered modal title. -/
inductive Focusable where
  | elem (n : Nat)
  | modalTitle (id : String)
deriving DecidableEq, Repr

/-- The state the modal open/close operations read and write: the modal
ids whose overlay exists, the ids whose overlay has the `open` class, the
ids with a stored ESC key handler, the body `overflow` style, the
module-level `lastFocus` slot, the focused element, and the URL
fragment. -/
structure MState where
  domIds : List String
  openIds : List String
  escIds : List String
  bodyOverflow : String
  lastFocus : Option Focusable
  focused : Focusable
  hash : String
deriving DecidableEq, Repr

/-- `openModal(id)`: a missing overlay is a no-op; otherwise the previous
focus is recorded in `lastFocus`, the overlay is marked open, background
scrolling is suspended, the modal title is focused, the fragment is set to
`#<id>` (pushState only when it differs, with the same resulting
fragment), and an ESC handler is stored and attached. -/
def openModal (id : String) (s : MState) : MState :=
  if id ∈ s.domIds then
    { s with
      lastFocus := some s.focused,
      openIds := if id ∈ s.openIds then s.openIds else id :: s.openIds,
      bodyOverflow := "hidden",
      focused := Focusable.modalTitle id,
      hash := "#" ++ id,
      escIds := if id ∈ s.escIds then s.escIds else id :: s.escIds }
  else s

/-- `closeModal(id)`: a missing overlay is a no-op; otherwise the overlay
is unmarked, scrolling resumes, focus returns to `lastFocus` when set, the
fragment is cleared exactly when it still names this modal, and the stored
ESC handler is detached. -/
def closeModal (id : String) (s : MState) : MState :=
  if id ∈ s.domIds then
    { s with
      openIds := s.openIds.filter (fun x => x ≠ id),
      bodyOverflow := "",
      focused := match s.lastFocus with
        | some f => f
        | none => s.focused,
      hash := if s.hash = "#" ++ id then "" else s.hash,
      escIds := s.escIds.filter (fun x => x ≠ id) }
  else s

/-! ### Concrete documents used as test inputs -/

/-- A demo item with an image, heading and text, numbered `n`. -/
def demoItem (n : String) : Item :=
  { image := some ("img" ++ n ++ ".webp"), heading := some ("Game " ++ n),
    text := some (TextVal.str ("Text " ++ n)), steamUrl := none }

/-- A five-item, two-section content document. -/
def fiveItemDoc : List Sect :=
  [ { title := "Released", items := [demoItem "1", demoItem "2", demoItem "3"] },
    { title := "Upcoming", items := [demoItem "4", demoItem "5"] } ]

/-- An item whose `text` is the single newline-delimited string `a\nb`. -/
def itemTextStr : Item :=
  { image := none, heading := none, text := some (TextVal.str "a\nb"), steamUrl := none }

/-- An item whose `text` is the explicit list `["a", "b"]`. -/
def itemTextArr : Item :=
  { image := none, heading := none, text := some (TextVal.arr ["a", "b"]), steamUrl := none }

/-- A one-entry modal list used as a test input. -/
def privacyModalList : List (Option ModalSpec) :=
  [some { id := "privacy", title := "Privacy Policy", content := none }]

/-- A modal-subsystem state with one rendered modal and the focus on an
ordinary element. -/
def oneModalState : MState :=
  { domIds := ["privacy"], openIds := [], escIds := [], bodyOverflow := "",
    lastFocus := none, focused := Focusable.elem 0, hash := "" }

/-! ## Theorems -/

/-! ### C1: external-app link resolution -/

/-- Claim C1 counterexample: on the item Steam-button click path the claim
fails twice at concrete inputs.  The URL `https://example.com/app/123` is
not on a recognized Steam host, yet the button handler derives the deep
link `steam://store/123` and attempts it; and the recognized-host URL
`https://store.steampowered.com/search/` without an `/app/<digits>`
pattern is opened as plain web navigation instead of the
`steam://openurl/...` deep link. -/
theorem steamButton_no_host_check_cex :
    steamButtonClick "https://example.com/app/123"
      = SteamAction.deepLink "steam://store/123" "https://example.com/app/123" ∧
    isSteamHost "https://example.com/app/123" = false ∧
    steamButtonClick "https://store.steampowered.com/search/"
      = SteamAction.openWeb "https://store.steampowered.com/search/" ∧
    isSteamHost "https://store.steampowered.com/search/" = true := by
  decide

/-- Claim C1 (amended): `tryOpenSteamFromWebUrl` behaves exactly as the
claim states — recognized-host URLs with an `/app/<digits>` pattern derive
`steam://store/<digits>`, recognized-host URLs without it derive
`steam://openurl/<percent-encoded URL>`, and non-recognized-host URLs are
opened as plain web navigation with no deep-link attempt.  The item
Steam-button click path instead decides by the `/app/<digits>` pattern
alone, with no host check: a match derives `steam://store/<digits>`
(whatever the host), and a non-match opens the web URL directly (never the
`openurl` form). -/
theorem steamLink_resolution (url : String) (h : url ≠ "") :
    (isSteamHost url = false → tryOpenSteamFromWebUrl url = SteamAction.openWeb url) ∧
    (∀ ds, isSteamHost url = true → findAppId url = some ds →
      tryOpenSteamFromWebUrl url = SteamAction.deepLink ("steam://store/" ++ ds) url) ∧
    (isSteamHost url = true → findAppId url = none →
      tryOpenSteamFromWebUrl url
        = SteamAction.deepLink ("steam://openurl/" ++ encodeURI url) url) ∧
    (∀ ds, findAppId url = some ds →
      steamButtonClick url = SteamAction.deepLink ("steam://store/" ++ ds) url) ∧
    (findAppId url = none → steamButtonClick url = SteamAction.openWeb url) := by
  refine ⟨?_, ?_, ?_, ?_, ?_⟩
  · intro hhost
    simp [tryOpenSteamFromWebUrl, h, hhost]
  · intro ds hhost hfind
    simp [tryOpenSteamFromWebUrl, h, hhost, hfind]
  · intro hhost hfind
    simp [tryOpenSteamFromWebUrl, h, hhost, hfind]
  · intro ds hfind
    simp [steamButtonClick, hfind]
  · intro hfind
    simp [steamButtonClick, hfind]

/-- Witness for `steamLink_resolution` at a concrete app-page URL. -/
theorem steamLink_resolution_witness :
    tryOpenSteamFromWebUrl "https://store.steampowered.com/app/3983920/X/"
      = SteamAction.deepLink "steam://store/3983920"
          "https://store.steampowered.com/app/3983920/X/" := by
  have h := steamLink_resolution "https://store.steampowered.com/app/3983920/X/" (by decide)
  exact h.2.1 "3983920" (by decide) (by decide)

/-! ### C2, C3: the `checkSteamAvailability` race -/

namespace SteamCheck

/-- A visibility change back to visible is a no-op in every state. -/
theorem step_visVisible (s : CState) : step s (Event.visChange false) = s := by
  simp [step]

/-- Every event leaves the blur-committed state unchanged. -/
theorem step_afterBlur (e : Event) : step afterBlur e = afterBlur := by
  cases e with
  | blur => decide
  | visChange hidden => cases hidden <;> decide
  | timerFire => decide

/-- Every event leaves the timeout-committed state unchanged. -/
theorem step_afterTimeout (e : Event) : step afterTimeout e = afterTimeout := by
  cases e with
  | blur => decide
  | visChange hidden => cases hidden <;> decide
  | timerFire => decide

/-- From the visibility-committed state every event stays there or moves
to the blur-committed state (a late blur still runs its handler). -/
theorem step_afterVis (e : Event) :
    step afterVis e = afterVis ∨ step afterVis e = afterBlur := by
  cases e with
  | blur => exact Or.inr (by decide)
  | visChange hidden => cases hidden <;> exact Or.inl (by decide)
  | timerFire => exact Or.inl (by decide)

/-- Folding over any event list from a state every event fixes keeps the
state. -/
theorem foldl_fixed (t : List Event) (s : CState) (habs : ∀ e, step s e = s) :
    t.foldl step s = s := by
  induction t with
  | nil => rfl
  | cons e rest ih => rw [List.foldl_cons, habs e]; exact ih

/-- Once a signal has committed the handoff, the state stays in the two
committed states forever. -/
theorem foldl_committed (t : List Event) :
    ∀ s : CState, (s = afterBlur ∨ s = afterVis) →
      t.foldl step s = afterBlur ∨ t.foldl step s = afterVis := by
  induction t with
  | nil => intro s hs; simpa using hs
  | cons e rest ih =>
      intro s hs
      rcases hs with rfl | rfl
      · rw [List.foldl_cons, step_afterBlur]
        exact ih afterBlur (Or.inl rfl)
      · rcases step_afterVis e with h | h
        · rw [List.foldl_cons, h]
          exact ih afterVis (Or.inr rfl)
        · rw [List.foldl_cons, h]
          exact ih afterBlur (Or.inl rfl)

/-- Processing the events before the timer expiry: with no signal the
state is untouched; with a signal it reaches a committed state. -/
theorem pre_phase (pre : List Event) (hnt : ∀ e ∈ pre, e ≠ Event.timerFire) :
    (pre.any isSignal = false → pre.foldl step init = init) ∧
    (pre.any isSignal = true →
      pre.foldl step init = afterBlur ∨ pre.foldl step init = afterVis) := by
  induction pre with
  | nil => simp
  | cons e rest ih =>
      have hnt' : ∀ x ∈ rest, x ≠ Event.timerFire :=
        fun x hx => hnt x (List.mem_cons_of_mem _ hx)
      have hne : e ≠ Event.timerFire := hnt e (List.mem_cons_self _ _)
      constructor
      · intro hno
        rw [List.any_cons, Bool.or_eq_false_iff] at hno
        have hstep : step init e = init := by
          cases e with
          | blur => simp [isSignal] at hno
          | visChange hidden =>
              cases hidden
              · exact step_visVisible init
              · simp [isSignal] at hno
          | timerFire => exact absurd rfl hne
        rw [List.foldl_cons, hstep]
        exact (ih hnt').1 hno.2
      · intro hyes
        rw [List.any_cons, Bool.or_eq_true_iff] at hyes
        cases e with
        | blur =>
            rw [List.foldl_cons, show step init Event.blur = afterBlur from by decide]
            exact foldl_committed rest afterBlur (Or.inl rfl)
        | visChange hidden =>
            cases hidden
            · rw [List.foldl_cons, step_visVisible init]
              refine (ih hnt').2 ?_
              rcases hyes with h | h
              · simp [isSignal] at h
              · exact h
            · rw [List.foldl_cons,
                show step init (Event.visChange true) = afterVis from by decide]
              exact foldl_committed rest afterVis (Or.inr rfl)
        | timerFire => exact absurd rfl hne

/-- One step preserves the invariant that at most one web open has
happened, and none while the timer is still armed. -/
theorem step_webOpens_inv (s : CState) (e : Event)
    (h1 : s.webOpens ≤ 1) (h2 : s.timerActive = true → s.webOpens = 0) :
    (step s e).webOpens ≤ 1 ∧
      ((step s e).timerActive = true → (step s e).webOpens = 0) := by
  cases e with
  | blur =>
      simp only [step]
      split
      · exact ⟨h1, by simp⟩
      · exact ⟨h1, h2⟩
  | visChange hidden =>
      simp only [step]
      split
      · exact ⟨h1, by simp⟩
      · exact ⟨h1, h2⟩
  | timerFire =>
      simp only [step]
      split
      · rename_i ht
        have h0 : s.webOpens = 0 := h2 ht
        have hle : s.webOpens + (if s.steamDetected then 0 else 1) ≤ 1 := by
          rw [h0]
          split <;> simp
        exact ⟨hle, by simp⟩
      · exact ⟨h1, h2⟩

/-- The invariant holds after any event sequence. -/
theorem foldl_webOpens_inv (t : List Event) :
    ∀ s : CState, s.webOpens ≤ 1 → (s.timerActive = true → s.webOpens = 0) →
      (t.foldl step s).webOpens ≤ 1 := by
  induction t with
  | nil => intro s h1 _; exact h1
  | cons e rest ih =>
      intro s h1 h2
      rw [List.foldl_cons]
      obtain ⟨h1', h2'⟩ := step_webOpens_inv s e h1 h2
      exact ih (step s e) h1' h2'

/-- Claim C2: per invocation of `checkSteamAvailability`, the fallback web
URL is opened at most once over any event sequence; and in a complete
trace (the events before the 100ms expiry, the expiry itself, and any
later events) it is opened exactly once precisely when neither a blur nor
a visibility-hidden signal arrived before the expiry, and never when one
did — the first committed outcome makes every later signal a no-op. -/
theorem checkSteamAvailability_commits_once :
    (∀ t : List Event, (run t).webOpens ≤ 1) ∧
    (∀ pre post : List Event, (∀ e ∈ pre, e ≠ Event.timerFire) →
      (run (pre ++ Event.timerFire :: post)).webOpens
        = if pre.any isSignal then 0 else 1) := by
  constructor
  · intro t
    exact foldl_webOpens_inv t init (by decide) (fun _ => rfl)
  · intro pre post hnt
    have hsplit : run (pre ++ Event.timerFire :: post)
        = (Event.timerFire :: post).foldl step (pre.foldl step init) := by
      simp [run, List.foldl_append]
    by_cases hs : pre.any isSignal = true
    · rw [hsplit, if_pos hs]
      rcases (pre_phase pre hnt).2 hs with h | h
      · rw [h, List.foldl_cons, step_afterBlur]
        rcases foldl_committed post afterBlur (Or.inl rfl) with h2 | h2 <;>
          rw [h2] <;> rfl
      · rw [h, List.foldl_cons]
        rcases step_afterVis Event.timerFire with h1 | h1 <;> rw [h1]
        · rcases foldl_committed post afterVis (Or.inr rfl) with h2 | h2 <;>
            rw [h2] <;> rfl
        · rcases foldl_committed post afterBlur (Or.inl rfl) with h2 | h2 <;>
            rw [h2] <;> rfl
    · have hs' : pre.any isSignal = false := by simpa using hs
      rw [hsplit, if_neg (by simp [hs']), (pre_phase pre hnt).1 hs',
        List.foldl_cons, show step init Event.timerFire = afterTimeout from by decide,
        foldl_fixed post afterTimeout step_afterTimeout]
      rfl

/-- Witness for `checkSteamAvailability_commits_once`: a blur before the
expiry suppresses the web open; an undisturbed expiry opens it once. -/
theorem checkSteamAvailability_commits_once_witness :
    (run [Event.blur, Event.timerFire]).webOpens = 0 ∧
    (run [Event.timerFire]).webOpens = 1 := by
  have h := checkSteamAvailability_commits_once
  constructor
  · have h2 := h.2 [Event.blur] []
      (by intro e he; rw [List.mem_singleton] at he; subst he; decide)
    rw [show ([Event.blur] ++ Event.timerFire :: ([] : List Event))
        = [Event.blur, Event.timerFire] from rfl] at h2
    rw [h2]
    decide
  · have h2 := h.2 [] []
      (by intro e he; exact absurd he (List.not_mem_nil e))
    rw [show (([] : List Event) ++ Event.timerFire :: ([] : List Event))
        = [Event.timerFire] from rfl] at h2
    rw [h2]
    decide

/-- Claim C3 counterexample: resources are not all released on every exit
path.  After a blur-detected exit the `visibilitychange` listener is still
attached, and after a visibility-hidden exit both the blur listener and
the `visibilitychange` listener are still attached. -/
theorem checkSteamAvailability_listener_leak_cex :
    (run [Event.blur]).visAttached = true ∧
    (run [Event.visChange true]).blurAttached = true ∧
    (run [Event.visChange true]).visAttached = true := by
  decide

/-- Claim C3 (amended): on every exit path the hidden test iframe is
removed and the timer is cleared; but only the timeout exit detaches both
listeners.  A blur exit detaches the blur listener (it was registered with
`once`) yet leaves the `visibilitychange` listener attached, and a
visibility-hidden exit leaves both listeners attached. -/
theorem checkSteamAvailability_cleanup (pre post : List Event)
    (hnt : ∀ e ∈ pre, e ≠ Event.timerFire) :
    (run (pre ++ Event.timerFire :: post)).frameAttached = false ∧
    (run (pre ++ Event.timerFire :: post)).timerActive = false ∧
    (pre.any isSignal = false →
      (run (pre ++ Event.timerFire :: post)).blurAttached = false ∧
      (run (pre ++ Event.timerFire :: post)).visAttached = false) ∧
    (pre.any isSignal = true →
      (run (pre ++ Event.timerFire :: post)).visAttached = true) ∧
    (run [Event.blur]).frameAttached = false ∧
    (run [Event.blur]).timerActive = false ∧
    (run [Event.blur]).blurAttached = false ∧
    (run [Event.blur]).visAttached = true ∧
    (run [Event.visChange true]).frameAttached = false ∧
    (run [Event.visChange true]).timerActive = false ∧
    (run [Event.visChange true]).blurAttached = true := by
  have hsplit : run (pre ++ Event.timerFire :: post)
      = (Event.timerFire :: post).foldl step (pre.foldl step init) := by
    simp [run, List.foldl_append]
  have hend : run (pre ++ Event.timerFire :: post) = afterTimeout ∨
      run (pre ++ Event.timerFire :: post) = afterBlur ∨
      run (pre ++ Event.timerFire :: post) = afterVis := by
    by_cases hs : pre.any isSignal = true
    · rcases (pre_phase pre hnt).2 hs with h | h
      · rw [hsplit, h, List.foldl_cons, step_afterBlur]
        rcases foldl_committed post afterBlur (Or.inl rfl) with h2 | h2 <;>
          rw [h2] <;> simp
      · rw [hsplit, h, List.foldl_cons]
        rcases step_afterVis Event.timerFire with h1 | h1 <;> rw [h1]
        · rcases foldl_committed post afterVis (Or.inr rfl) with h2 | h2 <;>
            rw [h2] <;> simp
        · rcases foldl_committed post afterBlur (Or.inl rfl) with h2 | h2 <;>
            rw [h2] <;> simp
    · have hs' : pre.any isSignal = false := by simpa using hs
      rw [hsplit, (pre_phase pre hnt).1 hs', List.foldl_cons,
        show step init Event.timerFire = afterTimeout from by decide,
        foldl_fixed post afterTimeout step_afterTimeout]
      exact Or.inl rfl
  refine ⟨?_, ?_, ?_, ?_, by decide, by decide, by decide, by decide,
    by decide, by decide, by decide⟩
  · rcases hend with h | h | h <;> rw [h] <;> rfl
  · rcases hend with h | h | h <;> rw [h] <;> rfl
  · intro hs'
    rw [hsplit, (pre_phase pre hnt).1 hs', List.foldl_cons,
      show step init Event.timerFire = afterTimeout from by decide,
      foldl_fixed post afterTimeout step_afterTimeout]
    exact ⟨rfl, rfl⟩
  · intro hs
    rcases (pre_phase pre hnt).2 hs with h | h
    · rw [hsplit, h, List.foldl_cons, step_afterBlur]
      rcases foldl_committed post afterBlur (Or.inl rfl) with h2 | h2 <;>
        rw [h2] <;> rfl
    · rw [hsplit, h, List.foldl_cons]
      rcases step_afterVis Event.timerFire with h1 | h1 <;> rw [h1]
      · rcases foldl_committed post afterVis (Or.inr rfl) with h2 | h2 <;>
          rw [h2] <;> rfl
      · rcases foldl_committed post afterBlur (Or.inl rfl) with h2 | h2 <;>
          rw [h2] <;> rfl

/-- Witness for `checkSteamAvailability_cleanup` at the undisturbed-expiry
trace. -/
theorem checkSteamAvailability_cleanup_witness :
    (run [Event.timerFire]).frameAttached = false ∧
    (run [Event.timerFire]).timerActive = false ∧
    (run [Event.timerFire]).blurAttached = false ∧
    (run [Event.timerFire]).visAttached = false := by
  have h := checkSteamAvailability_cleanup [] []
    (by intro e he; exact absurd he (List.not_mem_nil e))
  exact ⟨h.1, h.2.1, (h.2.2.1 rfl).1, (h.2.2.1 rfl).2⟩

end SteamCheck

/-! ### C4: item image loading policy -/

/-- Claim C4 counterexample: in the 5-item, 2-section document every item
image — including items 1 and 2 — is created with the native deferral
attribute `loading="lazy"`; no image is loaded eagerly and no global
first-N counter exists. -/
theorem itemImages_no_eager_first_two_cex :
    (itemImages fiveItemDoc).map ImageEl.loadingAttr
      = ["lazy", "lazy", "lazy", "lazy", "lazy"] ∧
    (itemImages fiveItemDoc).length = 5 := by
  decide

/-- Claim C4 (amended): every item image in any document, regardless of
its global position, is configured identically by `createItemImage`: the
`src` is assigned immediately, the native `loading` attribute is `"lazy"`,
an IntersectionObserver is attached (toggling a CSS class near the
viewport), and a load error hides the element.  There is no first-N eager
policy and no running counter. -/
theorem itemImages_uniform_lazy (sections : List Sect) (img : ImageEl)
    (h : img ∈ itemImages sections) :
    img.loadingAttr = "lazy" ∧ img.lazyObserved = true ∧ img.hideOnError = true := by
  unfold itemImages at h
  rcases List.mem_filterMap.mp h with ⟨it, _, hit⟩
  split at hit
  · rw [Option.some_inj] at hit
    subst hit
    exact ⟨rfl, rfl, rfl⟩
  · exact absurd hit (by simp)

/-- Witness for `itemImages_uniform_lazy` at the first image of the
five-item document. -/
theorem itemImages_uniform_lazy_witness :
    (createItemImage "img1.webp" "Game 1").loadingAttr = "lazy" := by
  have h := itemImages_uniform_lazy fiveItemDoc
    (createItemImage "img1.webp" "Game 1") (by decide)
  exact h.1

/-! ### C5: item text rendering -/

/-- Claim C5 counterexample: the single-string form `"a\nb"` renders as
one paragraph whose text content is the raw string, and the list form
`["a", "b"]` renders as one paragraph whose text content is the
comma-joined coercion `"a,b"` — neither produces two paragraph blocks with
contents `"a"` and `"b"`, and the two forms do not display the same
text. -/
theorem createItemContent_single_paragraph_cex :
    createItemContent itemTextStr = [ContentNode.para "a\nb" "item-text"] ∧
    createItemContent itemTextArr = [ContentNode.para "a,b" "item-text"] ∧
    createItemContent itemTextStr
      ≠ [ContentNode.para "a" "item-text", ContentNode.para "b" "item-text"] ∧
    createItemContent itemTextArr
      ≠ [ContentNode.para "a" "item-text", ContentNode.para "b" "item-text"] ∧
    createItemContent itemTextStr ≠ createItemContent itemTextArr := by
  decide

/-- Claim C5 (amended): a truthy text field always becomes exactly one
paragraph element: a non-empty string is rendered verbatim into a single
paragraph (its newlines kept inside that paragraph's text), and a list is
rendered into a single paragraph holding the JS array-to-string coercion,
its elements joined by commas.  The two forms are not rendered as
equivalent multi-paragraph output. -/
theorem createItemContent_text_forms (s : String) (l : List String) (hs : s ≠ "") :
    createItemContent ⟨none, none, some (TextVal.str s), none⟩
      = [ContentNode.para s "item-text"] ∧
    createItemContent ⟨none, none, some (TextVal.arr l), none⟩
      = [ContentNode.para (String.intercalate "," l) "item-text"] := by
  constructor <;>
    simp [createItemContent, strTruthy, textTruthy, textToDOMString, hs]

/-- Witness for `createItemContent_text_forms` at the claim's inputs. -/
theorem createItemContent_text_forms_witness :
    createItemContent itemTextStr = [ContentNode.para "a\nb" "item-text"] ∧
    createItemContent itemTextArr = [ContentNode.para "a,b" "item-text"] := by
  have h := createItemContent_text_forms "a\nb" ["a", "b"] (by decide)
  exact ⟨h.1, h.2⟩

/-! ### C6: stored theme retrieval -/

/-- Claim C6 counterexample: a stored value that is neither `dark` nor
`light` is returned verbatim by `getStoredTheme`, not coerced to
`dark`. -/
theorem getStoredTheme_invalid_passthrough_cex :
    getStoredTheme (some "banana") = "banana" ∧
    getStoredTheme (some "banana") ≠ "dark" ∧
    getStoredTheme (some "banana") ≠ "light" := by
  decide

/-- Claim C6 (amended): `getStoredTheme` returns `dark` when the key is
absent or holds the empty string (the only falsy string); every other
stored value — valid or not — is returned verbatim.  (Coercion of invalid
values to `dark` happens later, in `setTheme`, not here.) -/
theorem getStoredTheme_default :
    getStoredTheme none = "dark" ∧
    getStoredTheme (some "") = "dark" ∧
    (∀ s : String, s ≠ "" → getStoredTheme (some s) = s) := by
  refine ⟨rfl, rfl, ?_⟩
  intro s hs
  simp [getStoredTheme, hs]

/-- Witness for `getStoredTheme_default` at a stored `light`. -/
theorem getStoredTheme_default_witness :
    getStoredTheme (some "light") = "light" :=
  getStoredTheme_default.2.2 "light" (by decide)

/-! ### C7: theme toggle -/

/-- Claim C7: from a consistent state with theme `dark` or `light`, one
toggle click flips the applied and persisted theme to the other of the two
values (never a third), and two clicks restore the stylesheet `href`, the
persisted entry and the body attribute exactly. -/
theorem themeToggle_involutive (t : String) (st : ThemeState)
    (ht : t = "dark" ∨ t = "light")
    (hhref : st.href = some ("css/" ++ t ++ ".css"))
    (hstored : st.stored = some t) (hbody : st.bodyTheme = some t) :
    getCurrentTheme st = t ∧
    getCurrentTheme (clickToggle st) = (if t = "dark" then "light" else "dark") ∧
    (clickToggle st).stored = some (if t = "dark" then "light" else "dark") ∧
    clickToggle (clickToggle st) = st := by
  rcases st with ⟨h1, h2, h3⟩
  simp only at hhref hstored hbody
  subst hhref hstored hbody
  rcases ht with rfl | rfl <;> decide

/-- Witness for `themeToggle_involutive` starting from the dark theme. -/
theorem themeToggle_involutive_witness :
    clickToggle (clickToggle
      { href := some "css/dark.css", stored := some "dark", bodyTheme := some "dark" })
      = { href := some "css/dark.css", stored := some "dark", bodyTheme := some "dark" } := by
  have h := themeToggle_involutive "dark"
    { href := some "css/dark.css", stored := some "dark", bodyTheme := some "dark" }
    (Or.inl rfl) (by decide) rfl rfl
  exact h.2.2.2

/-! ### C8: bootstrap failure handling -/

/-- Claim C8 counterexample: in the second `index.js` revision a failed
content load reveals the page (spinner hidden, content shown) but never
writes a user-visible failure message — `displayError` is not called on
that catch path. -/
theorem initializeAppB_no_failure_message_cex :
    initializeAppB (FetchOutcome.networkError "Failed to fetch")
      = { spinnerHidden := true, contentShown := true, errorShown := false } := by
  decide

/-- Claim C8 (amended): on every load outcome — success, network failure,
non-success HTTP status, or parse failure — both bootstrap revisions
resolve the loading state (the first removes the body `loading` class, the
second hides the spinner and shows the content), so the page is never left
permanently loading; but only the first revision additionally displays the
user-visible failure message on failure. -/
theorem bootstrap_always_resolves (f : FetchOutcome) :
    (initializeAppA f).bodyLoadingClass = false ∧
    (initializeAppB f).spinnerHidden = true ∧
    (initializeAppB f).contentShown = true ∧
    (∀ e, loadData f = Except.error e →
      (initializeAppA f).mainContent = MainContent.errorMsg
        "Sorry, something went wrong loading the page. Please try refreshing.") := by
  cases hl : loadData f with
  | error e => simp [initializeAppA, initializeAppB, hl]
  | ok d => cases hs : d.sections <;> simp [initializeAppA, initializeAppB, hl, hs]

/-- Witness for `bootstrap_always_resolves` at a network failure. -/
theorem bootstrap_always_resolves_witness :
    (initializeAppA (FetchOutcome.networkError "Failed to fetch")).bodyLoadingClass
      = false ∧
    (initializeAppA (FetchOutcome.networkError "Failed to fetch")).mainContent
      = MainContent.errorMsg
          "Sorry, something went wrong loading the page. Please try refreshing." := by
  have h := bootstrap_always_resolves (FetchOutcome.networkError "Failed to fetch")
  exact ⟨h.1, h.2.2.2 "Failed to fetch" rfl⟩

/-! ### C9: closing a modal -/

/-- Claim C9: for an id whose modal element exists, closing right after
opening restores the focus recorded before the open, resets the body
`overflow` so background scroll resumes, detaches the ESC key handler
installed at open, unmarks the overlay, and leaves the fragment cleared;
on any state, `closeModal` clears the fragment exactly when it still names
this modal; and `closeModal` on an id with no modal element changes
nothing. -/
theorem closeModal_spec (s : MState) (id : String) :
    (id ∈ s.domIds →
      (closeModal id (openModal id s)).focused = s.focused ∧
      (closeModal id (openModal id s)).bodyOverflow = "" ∧
      id ∉ (closeModal id (openModal id s)).escIds ∧
      id ∉ (closeModal id (openModal id s)).openIds ∧
      (closeModal id (openModal id s)).hash = "") ∧
    (id ∈ s.domIds → s.hash = "#" ++ id → (closeModal id s).hash = "") ∧
    (id ∈ s.domIds → s.hash ≠ "#" ++ id → (closeModal id s).hash = s.hash) ∧
    (id ∉ s.domIds → closeModal id s = s) := by
  refine ⟨?_, ?_, ?_, ?_⟩
  · intro hdom
    simp [openModal, closeModal, hdom, List.mem_filter]
  · intro hdom hh
    simp [closeModal, hdom, hh]
  · intro hdom hh
    simp [closeModal, hdom, hh]
  · intro hdom
    simp [closeModal, hdom]

/-- Witness for `closeModal_spec` on the one-modal state. -/
theorem closeModal_spec_witness :
    (closeModal "privacy" (openModal "privacy" oneModalState)).focused
      = Focusable.elem 0 ∧
    (closeModal "privacy" (openModal "privacy" oneModalState)).bodyOverflow = "" ∧
    "privacy" ∉ (closeModal "privacy" (openModal "privacy" oneModalState)).escIds := by
  have h := closeModal_spec oneModalState "privacy"
  have h1 := h.1 (by decide)
  exact ⟨h1.1, h1.2.1, h1.2.2.1⟩

/-! ### C10: modal rendering is idempotent -/

/-- Appending-only: an element already in the document survives one
`renderModals` iteration. -/
theorem renderModalStep_mono (dom : List String) (m : Option ModalSpec)
    (a : String) (ha : a ∈ dom) : a ∈ renderModalStep dom m := by
  cases m with
  | none => exact ha
  | some m =>
      by_cases h1 : m.id = ""
      · simpa [renderModalStep, h1] using ha
      · by_cases h2 : m.title = ""
        · simpa [renderModalStep, h1, h2] using ha
        · by_cases h3 : modalKey m.id ∈ dom
          · simpa [renderModalStep, h1, h2, h3] using ha
          · simp [renderModalStep, h1, h2, h3]
            exact Or.inl ha

/-- Appending-only, folded over the whole modal list. -/
theorem renderModalFold_mono (ms : List (Option ModalSpec)) :
    ∀ (dom : List String) (a : String), a ∈ dom →
      a ∈ ms.foldl renderModalStep dom := by
  induction ms with
  | nil => intro dom a ha; exact ha
  | cons m rest ih =>
      intro dom a ha
      rw [List.foldl_cons]
      exact ih _ a (renderModalStep_mono dom m a ha)

/-- After one pass, every valid entry has its element in the document. -/
theorem renderModalFold_key (ms : List (Option ModalSpec)) :
    ∀ (dom : List String) (m : ModalSpec), some m ∈ ms → m.id ≠ "" →
      m.title ≠ "" → modalKey m.id ∈ ms.foldl renderModalStep dom := by
  induction ms with
  | nil => intro dom m hm _ _; exact absurd hm (List.not_mem_nil _)
  | cons m0 rest ih =>
      intro dom m hm hid ht
      rw [List.foldl_cons]
      rcases List.mem_cons.mp hm with heq | hmem
      · subst heq
        refine renderModalFold_mono rest _ _ ?_
        by_cases h3 : modalKey m.id ∈ dom
        · simp [renderModalStep, hid, ht, h3]
        · simp [renderModalStep, hid, ht, h3]
      · exact ih _ m hmem hid ht

/-- A pass over a document that already contains every valid entry is the
identity. -/
theorem renderModalFold_fixed (ms : List (Option ModalSpec)) :
    ∀ dom : List String,
      (∀ m : ModalSpec, some m ∈ ms → m.id ≠ "" → m.title ≠ "" →
        modalKey m.id ∈ dom) →
      ms.foldl renderModalStep dom = dom := by
  induction ms with
  | nil => intro dom _; rfl
  | cons m0 rest ih =>
      intro dom hall
      rw [List.foldl_cons]
      have hstep : renderModalStep dom m0 = dom := by
        cases m0 with
        | none => rfl
        | some m =>
            by_cases h1 : m.id = ""
            · simp [renderModalStep, h1]
            · by_cases h2 : m.title = ""
              · simp [renderModalStep, h1, h2]
              · simp [renderModalStep, h1, h2,
                  hall m (List.mem_cons_self _ _) h1 h2]
      rw [hstep]
      exact ih dom fun m hm => hall m (List.mem_cons_of_mem _ hm)

/-- One iteration preserves the absence of duplicate element ids. -/
theorem renderModalStep_nodup (dom : List String) (m : Option ModalSpec)
    (h : dom.Nodup) : (renderModalStep dom m).Nodup := by
  cases m with
  | none => exact h
  | some m =>
      by_cases h1 : m.id = ""
      · simpa [renderModalStep, h1] using h
      · by_cases h2 : m.title = ""
        · simpa [renderModalStep, h1, h2] using h
        · by_cases h3 : modalKey m.id ∈ dom
          · simpa [renderModalStep, h1, h2, h3] using h
          · have : (dom ++ [modalKey m.id]).Nodup :=
              List.Nodup.append h (List.nodup_singleton _) (by simpa using h3)
            simpa [renderModalStep, h1, h2, h3] using this

/-- A full pass preserves the absence of duplicate element ids. -/
theorem renderModalFold_nodup (ms : List (Option ModalSpec)) :
    ∀ dom : List String, dom.Nodup → (ms.foldl renderModalStep dom).Nodup := by
  induction ms with
  | nil => intro dom h; exact h
  | cons m rest ih =>
      intro dom h
      rw [List.foldl_cons]
      exact ih _ (renderModalStep_nodup dom m h)

/-- Claim C10: `renderModals` is idempotent on the DOM — a second pass
with the same modal list creates no element (entries whose id already has
a rendered element are skipped, as are null entries and entries with a
falsy id or title), and a pass never introduces duplicate modal element
ids. -/
theorem renderModals_idempotent (dom : List String) (ms : List (Option ModalSpec)) :
    renderModals (renderModals dom ms) ms = renderModals dom ms ∧
    (dom.Nodup → (renderModals dom ms).Nodup) := by
  unfold renderModals
  by_cases he : ms.isEmpty
  · simp [he]
  · simp only [he, if_false]
    constructor
    · exact renderModalFold_fixed ms _ fun m hm hid ht =>
        renderModalFold_key ms dom m hm hid ht
    · intro hnd
      exact renderModalFold_nodup ms dom hnd

/-- Witness for `renderModals_idempotent` on the one-entry modal list. -/
theorem renderModals_idempotent_witness :
    renderModals (renderModals [] privacyModalList) privacyModalList
      = renderModals [] privacyModalList ∧
    (renderModals [] privacyModalList).Nodup := by
  have h := renderModals_idempotent [] privacyModalList
  exact ⟨h.1, h.2 (by decide)⟩

end YetiFace
